import Mathlib

/-!
A verification development for the `exceptional` interpreter: a stack-based
VM for a small scripting language whose sole non-local control transfer is
`raise`, dispatched against pattern-matching `rescue` handlers installed per
frame.

The embedding translates `src/vm.rs`, `src/native.rs` and `src/ast.rs`
directly.  The crate modules `value.rs`, `binding_map.rs`, `closure.rs`,
`exception_handler.rs`, `instructions.rs` and `compiler.rs` are not present
in the source tree; the definitions for those parts are modelled from the
specification (each such definition says so in its doc comment).

Representation conventions, stated once:
* Rust `Vec` stacks push/pop at the END of the vector.  Lean lists here are
  stored reversed, so the HEAD of a list is the Rust vector's last element:
  the head of `Vm.stack` is the top of the operand stack, and the head of
  `Vm.frames` is the newest (current) frame.  `Frame.exception_handlers`
  keeps Rust `Vec` order instead (head = oldest installed handler), because
  `Vm::raise` iterates handlers front-to-back; installing appends.
* Rational numbers (`num::BigRational`, kept reduced) are `ℚ`.
* Fallible host operations (Rust panics / `unwrap`) appear as `Option` or as
  the `fatal` outcome of a VM step.
* Real file I/O is abstracted by an oracle `fs : String → Except String
  String` giving a file's contents or an error description.
* The `file_descriptors` table and genuine socket I/O are outside the scope
  of this development and are not modelled.
-/

/-- Binary operators, as consumed by `Instruction::BinOp` in `src/vm.rs`
(the `instructions.rs` module that declares `Op` is not in the source tree;
the alphabet is taken from the `match op` in the BinOp arm). -/
inductive Op where
  | add | sub | mul | div | eq | gtEq | gt | ltEq | lt
  deriving DecidableEq, Repr

/-- Tags naming the five native functions of `src/native.rs`. -/
inductive NativeTag where
  | fileRead | fileWrite | tcpConnect | tcpListen | tcpAccept
  deriving DecidableEq, Repr

/-! ### Patterns (`src/ast.rs`) -/

mutual
/-- `Pattern` from `src/ast.rs`: literal patterns, a map pattern over a list
of (key-pattern, value-pattern) pairs, and an identifier pattern. -/
inductive Pattern where
  | number (q : ℚ)
  | charString (s : String)
  | boolean (b : Bool)
  | map (pairs : PatternPairs)
  | identifier (n : String)
  deriving DecidableEq, Repr
/-- The `Vec<(Pattern, Pattern)>` of a map pattern, flattened into the
mutual family. -/
inductive PatternPairs where
  | nil
  | cons (k v : Pattern) (rest : PatternPairs)
  deriving DecidableEq, Repr
end

/-! ### AST (`src/ast.rs`) -/

mutual
/-- `Literal` from `src/ast.rs`. -/
inductive Literal where
  | number (q : ℚ)
  | charString (s : String)
  | boolean (b : Bool)
  | map (pairs : ExprPairs)
  | fn (params : List String) (body : StmtList)
  deriving DecidableEq, Repr
/-- `Expression` from `src/ast.rs`; the operator is a `String`, exactly as
in the Rust AST. -/
inductive Expression where
  | binOp (op : String) (left right : Expression)
  | literal (l : Literal)
  | identifier (n : String)
  deriving DecidableEq, Repr
/-- `Statement` from `src/ast.rs`: `Assign(is_let, name, expr)`,
`Call(name, args)`, `Raise(expr)`, `Rescue(pattern, body)`. -/
inductive Statement where
  | assign (isLet : Bool) (name : String) (e : Expression)
  | call (name : String) (args : ExprList)
  | raiseStmt (e : Expression)
  | rescueStmt (p : Pattern) (body : StmtList)
  deriving DecidableEq, Repr
/-- `Vec<(Expression, Expression)>` of a map literal. -/
inductive ExprPairs where
  | nil
  | cons (k v : Expression) (rest : ExprPairs)
  deriving DecidableEq, Repr
/-- `Vec<Expression>` of call arguments. -/
inductive ExprList where
  | nil
  | cons (e : Expression) (rest : ExprList)
  deriving DecidableEq, Repr
/-- `Vec<Statement>` of a function or rescue body. -/
inductive StmtList where
  | nil
  | cons (s : Statement) (rest : StmtList)
  deriving DecidableEq, Repr
end

/-! ### Instructions

`instructions.rs` is not in the source tree; the constructors below are the
ones matched on in `Vm::run` (`src/vm.rs`) and produced in `src/native.rs`.
`Native` carries a tag naming one of the five host functions instead of a
function pointer. -/

mutual
inductive Instruction where
  | clear
  | push (l : Literal)
  | assign (name : String)
  | localAssign (name : String)
  | call (argSize : Nat)
  | fetch (name : String)
  | makeMap (size : Nat)
  | rescue (p : Pattern) (body : InsnList)
  | raise
  | binOp (op : Op)
  | indexAccess
  | indexAssign
  | importLib
  | native (t : NativeTag)
  deriving DecidableEq, Repr
/-- `InstructionSequence` (`Vec<Instruction>`), flattened into the mutual
family because `rescue` holds a compiled sub-sequence. -/
inductive InsnList where
  | nil
  | cons (i : Instruction) (rest : InsnList)
  deriving DecidableEq, Repr
end

/-- Element access in an instruction sequence, mirroring `vm.instructions.get(pc)`. -/
def InsnList.get? : InsnList → Nat → Option Instruction
  | .nil, _ => none
  | .cons i _, 0 => some i
  | .cons _ rest, n + 1 => rest.get? n

/-- Concatenation of instruction sequences (used by the compiler). -/
def InsnList.append : InsnList → InsnList → InsnList
  | .nil, l => l
  | .cons i rest, l => .cons i (rest.append l)

/-- Length of an instruction sequence. -/
def InsnList.length : InsnList → Nat
  | .nil => 0
  | .cons _ rest => rest.length + 1

/-! ### Values, bindings, closures

`value.rs`, `binding_map.rs` and `closure.rs` are not in the source tree.
The shapes below are modelled from the spec (§3): Number / CharString /
Boolean / Map / Closure values; a `BindingMap` is one scope (name → value)
plus an optional parent; a closure is an instruction sequence plus the
captured `BindingMap`.  Rust shares maps and scopes via `Rc<RefCell<…>>`;
this pure model stores them by value, which is faithful for every property
proved below (none of them observes aliasing). -/

mutual
inductive Value where
  | number (q : ℚ)
  | charString (s : String)
  | boolean (b : Bool)
  | map (entries : EntryList)
  | closure (params : List String) (c : ClosureV)
  deriving DecidableEq, Repr
/-- The entry list of a map value (Rust: `BTreeMap<Rc<Value>, Rc<Value>>`).
Entries are kept in insertion order with unique keys maintained by
`insertEntry`; only lookup content matters to the properties below. -/
inductive EntryList where
  | nil
  | cons (k v : Value) (rest : EntryList)
  deriving DecidableEq, Repr
/-- Modelled from the spec: `closure.rs` is not in the source tree.  A
closure body: instruction sequence plus captured parent bindings
(fields `instructions` and `parent_bindings` are used by `Vm::raise`). -/
inductive ClosureV where
  | mk (instructions : InsnList) (parent_bindings : BindingMap)
  deriving DecidableEq, Repr
/-- Modelled from the spec: `binding_map.rs` is not in the source tree.  A
lexical scope: local name→value bindings plus an optional parent scope. -/
inductive BindingMap where
  | mk (locals : Bindings) (parent : OptBindingMap)
  deriving DecidableEq, Repr
/-- The name→value association of one scope. -/
inductive Bindings where
  | nil
  | cons (name : String) (v : Value) (rest : Bindings)
  deriving DecidableEq, Repr
/-- `Option BindingMap`, flattened into the mutual family. -/
inductive OptBindingMap where
  | none
  | some (m : BindingMap)
  deriving DecidableEq, Repr
end

def ClosureV.instructions : ClosureV → InsnList
  | .mk i _ => i

def ClosureV.parent_bindings : ClosureV → BindingMap
  | .mk _ b => b

def BindingMap.locals : BindingMap → Bindings
  | .mk l _ => l

def BindingMap.parent : BindingMap → OptBindingMap
  | .mk _ p => p

/-! ### Scope-chain operations

Modelled from the spec (§3 BindingMap): `binding_map.rs` is not in the
source tree.  `local_assign` always writes the current scope; `assign`
writes the nearest scope up the chain that already defines the name, else
the current scope; `fetch` resolves up the chain. -/

/-- First binding of a name in one scope (Rust scopes are `HashMap`s; the
association list keeps one entry per name, maintained by `setName`). -/
def Bindings.lookupName : Bindings → String → Option Value
  | .nil, _ => none
  | .cons name v rest, n => if name = n then some v else rest.lookupName n

/-- Insert-or-update of one scope's binding. -/
def Bindings.setName : Bindings → String → Value → Bindings
  | .nil, n, v => .cons n v .nil
  | .cons name w rest, n, v =>
      if name = n then .cons name v rest else .cons name w (rest.setName n v)

/-- Whether one scope binds the name. -/
def Bindings.hasName (b : Bindings) (n : String) : Bool :=
  (b.lookupName n).isSome

/-- Modelled from the spec: `BindingMap::fetch` resolves up the chain,
absent if no scope defines the name. -/
def BindingMap.fetch : BindingMap → String → Option Value
  | .mk locals parent, n =>
      match locals.lookupName n with
      | some v => some v
      | none =>
          match parent with
          | .none => none
          | .some p => p.fetch n

/-- Modelled from the spec: `BindingMap::local_assign` always writes into
the current scope, shadowing any outer binding (what `let` emits). -/
def BindingMap.local_assign : BindingMap → String → Value → BindingMap
  | .mk locals parent, n, v => .mk (locals.setName n v) parent

/-- Whether any scope of the chain binds the name. -/
def BindingMap.hasName : BindingMap → String → Bool
  | .mk locals parent, n =>
      locals.hasName n ||
        (match parent with
         | .none => false
         | .some p => p.hasName n)

/-- Modelled from the spec: `BindingMap::assign` writes to the nearest
enclosing scope that already defines the name; when no scope in the chain
defines it, writes to the current scope (what plain `x = e` emits). -/
def BindingMap.assign : BindingMap → String → Value → BindingMap
  | .mk locals parent, n, v =>
      if locals.hasName n then .mk (locals.setName n v) parent
      else
        match parent with
        | .none => .mk (locals.setName n v) .none
        | .some p =>
            if p.hasName n then .mk locals (.some (p.assign n v))
            else .mk (locals.setName n v) (.some p)

/-- The scope chain as a list, current scope first (used only to state
properties about `assign` and `local_assign`). -/
def BindingMap.chain : BindingMap → List Bindings
  | .mk locals parent =>
      locals ::
        (match parent with
         | .none => []
         | .some p => p.chain)

/-! ### Map-value operations -/

/-- Lookup in a map value's entries under structural key equality. -/
def EntryList.lookup : EntryList → Value → Option Value
  | .nil, _ => none
  | .cons k v rest, key => if k = key then some v else rest.lookup key

/-- Insert-or-update of a map entry (Rust `BTreeMap::insert`: an existing
key keeps its slot with the new value, a new key is added). -/
def EntryList.insertEntry : EntryList → Value → Value → EntryList
  | .nil, k, v => .cons k v .nil
  | .cons k' v' rest, k, v =>
      if k' = k then .cons k' v rest else .cons k' v' (rest.insertEntry k v)

/-- The keys of a map value, in entry order. -/
def EntryList.keys : EntryList → List Value
  | .nil => []
  | .cons k _ rest => k :: rest.keys

/-- Overlay of two maps: start from a copy of the left map and insert every
entry of the right map in order, so the right map wins on duplicate keys.
Modelled from the spec (§4.3 BinOp, `+` on Map×Map); `value.rs` is not in
the source tree. -/
def EntryList.overlay : EntryList → EntryList → EntryList
  | acc, .nil => acc
  | acc, .cons k v rest => (acc.insertEntry k v).overlay rest

/-! ### Value arithmetic and comparison

Modelled from the spec (§4.3 BinOp semantics): `value.rs` is not in the
source tree.  The operations return `Except`, matching the `Result` that
`Vm::run`'s BinOp arm destructures (`if let Ok(result) = binop_result`);
unsupported type combinations are `error`. -/

def Value.add : Value → Value → Except String Value
  | .number a, .number b => .ok (.number (a + b))
  | .charString a, .charString b => .ok (.charString (a ++ b))
  | .map a, .map b => .ok (.map (a.overlay b))
  | _, _ => .error "cannot add values of these types"

def Value.sub : Value → Value → Except String Value
  | .number a, .number b => .ok (.number (a - b))
  | _, _ => .error "cannot subtract values of these types"

def Value.mul : Value → Value → Except String Value
  | .number a, .number b => .ok (.number (a * b))
  | _, _ => .error "cannot multiply values of these types"

def Value.div : Value → Value → Except String Value
  | .number a, .number b => .ok (.number (a / b))
  | _, _ => .error "cannot divide values of these types"

/-- Structural equality across all variant pairs (spec §4.3: `=` is
structural equality, unequal across different variants). -/
def Value.val_eq (a b : Value) : Except String Value :=
  .ok (.boolean (a = b))

def Value.val_gt : Value → Value → Except String Value
  | .number a, .number b => .ok (.boolean (b < a))
  | .charString a, .charString b => .ok (.boolean (b < a))
  | _, _ => .error "cannot order values of these types"

def Value.val_lt : Value → Value → Except String Value
  | .number a, .number b => .ok (.boolean (a < b))
  | .charString a, .charString b => .ok (.boolean (a < b))
  | _, _ => .error "cannot order values of these types"

/-- The `match op` of the BinOp arm of `Vm::run` (`src/vm.rs`): `>=` and
`<=` first test `val_eq` and only consult the strict order when equality
answered `Boolean(false)`. -/
def applyOp : Op → Value → Value → Except String Value
  | .add, l, r => l.add r
  | .sub, l, r => l.sub r
  | .mul, l, r => l.mul r
  | .div, l, r => l.div r
  | .eq, l, r => l.val_eq r
  | .gtEq, l, r =>
      match l.val_eq r with
      | .ok (.boolean false) => l.val_gt r
      | yes => yes
  | .gt, l, r => l.val_gt r
  | .ltEq, l, r =>
      match l.val_eq r with
      | .ok (.boolean false) => l.val_lt r
      | yes => yes
  | .lt, l, r => l.val_lt r

/-! ### Pattern matching

Modelled from the spec (§4.4 match rules): `exception_handler.rs` is not in
the source tree.  A match yields the name→value bindings produced by
identifier sub-patterns; conflicting bindings of one name fail the match.
Keys of a map pattern are matched structurally — only literal key patterns
are meaningful (spec §9 Pattern keys); a non-literal key pattern fails. -/

/-- First binding of a name in a binding set. -/
def lookupBinding : List (String × Value) → String → Option Value
  | [], _ => none
  | (m, v) :: rest, n => if m = n then some v else lookupBinding rest n

/-- Union of two binding sets; a name bound to two different values makes
the union (and hence the match) fail. -/
def mergeBindings : List (String × Value) → List (String × Value) → Option (List (String × Value))
  | acc, [] => some acc
  | acc, (n, v) :: rest =>
      match lookupBinding acc n with
      | some w => if w = v then mergeBindings acc rest else none
      | none => mergeBindings (acc ++ [(n, v)]) rest

/-- The value denoted by a literal key pattern; identifier and map key
patterns have no structural key value. -/
def patternKeyValue : Pattern → Option Value
  | .number q => some (.number q)
  | .charString s => some (.charString s)
  | .boolean b => some (.boolean b)
  | .map _ => none
  | .identifier _ => none

mutual
/-- Modelled from the spec: match a pattern against a value, yielding the
bindings produced by identifier sub-patterns, or `none` on mismatch. -/
def matchPattern : Pattern → Value → Option (List (String × Value))
  | .number q, v => if v = .number q then some [] else none
  | .charString s, v => if v = .charString s then some [] else none
  | .boolean b, v => if v = .boolean b then some [] else none
  | .identifier n, v => some [(n, v)]
  | .map pairs, v =>
      match v with
      | .map entries => matchPairs pairs entries
      | _ => none
/-- Match every (key-pattern, value-pattern) pair of a map pattern: the map
must contain an entry at the literal key, the sub-value must match, and the
bindings of all sub-matches must merge without conflict. -/
def matchPairs : PatternPairs → EntryList → Option (List (String × Value))
  | .nil, _ => some []
  | .cons kp vp rest, entries =>
      match patternKeyValue kp with
      | none => none
      | some key =>
          match entries.lookup key with
          | none => none
          | some v =>
              match matchPattern vp v with
              | none => none
              | some b1 =>
                  match matchPairs rest entries with
                  | none => none
                  | some b2 => mergeBindings b1 b2
end

/-- Modelled from the spec: an `ExceptionHandler` is a (pattern, closure)
pair; `matches` tests the pattern against a raised value and yields fresh
bindings (`exception_handler.rs` is not in the source tree). -/
structure ExceptionHandler where
  pattern : Pattern
  closure : ClosureV
  deriving DecidableEq, Repr

def ExceptionHandler.matches (h : ExceptionHandler) (v : Value) : Option (List (String × Value)) :=
  matchPattern h.pattern v

/-! ### Compiler

Modelled from the spec (§4.2): `compiler.rs` is not in the source tree.
One deliberate divergence from the spec's words: for a call statement the
spec says `Fetch(f)` is emitted before the arguments, but `Vm::run`'s Call
arm (`src/vm.rs:109`) pops the closure from the TOP of the stack before
popping the arguments, and the in-tree test `function_call_with_args`
passes; both force the closure to be pushed last.  The compiler therefore
emits the arguments left-to-right, then `Fetch(f)`, then `Call(n)`.
`compileCallSpecOrder` below keeps the spec's literal order for comparison.
Unknown operator strings make compilation fail (`none`). -/

/-- Number of pairs in a map literal. -/
def ExprPairs.length : ExprPairs → Nat
  | .nil => 0
  | .cons _ _ rest => rest.length + 1

/-- Number of call arguments. -/
def ExprList.length : ExprList → Nat
  | .nil => 0
  | .cons _ rest => rest.length + 1

/-- Operator strings of the AST mapped to opcodes. -/
def strToOp : String → Option Op
  | "+" => some .add
  | "-" => some .sub
  | "*" => some .mul
  | "/" => some .div
  | "==" => some .eq
  | ">=" => some .gtEq
  | ">" => some .gt
  | "<=" => some .ltEq
  | "<" => some .lt
  | _ => none

mutual
def compileExpression : Expression → Option InsnList
  | .literal (.number q) => some (.cons (.push (.number q)) .nil)
  | .literal (.charString s) => some (.cons (.push (.charString s)) .nil)
  | .literal (.boolean b) => some (.cons (.push (.boolean b)) .nil)
  | .literal (.fn params body) => some (.cons (.push (.fn params body)) .nil)
  | .literal (.map pairs) =>
      match compileExprPairs pairs with
      | none => none
      | some code => some (code.append (.cons (.makeMap pairs.length) .nil))
  | .identifier n => some (.cons (.fetch n) .nil)
  | .binOp op l r =>
      match strToOp op with
      | none => none
      | some o =>
          match compileExpression l with
          | none => none
          | some lc =>
              match compileExpression r with
              | none => none
              | some rc => some ((lc.append rc).append (.cons (.binOp o) .nil))
/-- For each pair of a map literal: compile the key, then the value. -/
def compileExprPairs : ExprPairs → Option InsnList
  | .nil => some .nil
  | .cons k v rest =>
      match compileExpression k with
      | none => none
      | some kc =>
          match compileExpression v with
          | none => none
          | some vc =>
              match compileExprPairs rest with
              | none => none
              | some rc => some ((kc.append vc).append rc)
/-- Call arguments compiled left-to-right and concatenated. -/
def compileExprList : ExprList → Option InsnList
  | .nil => some .nil
  | .cons e rest =>
      match compileExpression e with
      | none => none
      | some ec =>
          match compileExprList rest with
          | none => none
          | some rc => some (ec.append rc)
def compileStatement : Statement → Option InsnList
  | .assign isLet name e =>
      match compileExpression e with
      | none => none
      | some ec =>
          some (ec.append (.cons (if isLet then .localAssign name else .assign name)
            (.cons .clear .nil)))
  | .call f args =>
      match compileExprList args with
      | none => none
      | some ac =>
          some (ac.append (.cons (.fetch f) (.cons (.call args.length) (.cons .clear .nil))))
  | .raiseStmt e =>
      match compileExpression e with
      | none => none
      | some ec => some (ec.append (.cons .raise .nil))
  | .rescueStmt p body =>
      match compileStatements body with
      | none => none
      | some bc => some (.cons (.rescue p bc) .nil)
def compileStatements : StmtList → Option InsnList
  | .nil => some .nil
  | .cons s rest =>
      match compileStatement s with
      | none => none
      | some sc =>
          match compileStatements rest with
          | none => none
          | some rc => some (sc.append rc)
end

/-- The spec's literal emission order for a call statement (§4.2:
`Fetch(f)` first, then the arguments, then `Call(n)`), kept for comparison
with `compileStatement`. -/
def compileCallSpecOrder (f : String) (args : ExprList) : Option InsnList :=
  match compileExprList args with
  | none => none
  | some ac =>
      some ((InsnList.cons (.fetch f) .nil).append
        (ac.append (.cons (.call args.length) (.cons .clear .nil))))

/-! ### Frames and VM state (`src/vm.rs`) -/

/-- `Frame` from `src/vm.rs`: a binding map plus the frame's installed
exception handlers (head = oldest installed; `Rescue` appends). -/
structure Frame where
  bindings : BindingMap
  exception_handlers : List ExceptionHandler
  deriving DecidableEq, Repr

/-- `Frame::new`: a frame starts with no handlers. -/
def Frame.new (bindings : BindingMap) : Frame :=
  ⟨bindings, []⟩

/-- `Vm` from `src/vm.rs` (the `file_descriptors` table is not modelled;
see the header).  The head of `stack` is the top of the operand stack; the
head of `frames` is the newest frame. -/
structure Vm where
  instructions : InsnList
  pc : Nat
  stack : List Value
  frames : List Frame
  deriving DecidableEq, Repr

/-- `Vm::empty`: no instructions, one frame with an empty root scope. -/
def Vm.empty : Vm :=
  ⟨.nil, 0, [], [Frame.new (BindingMap.mk .nil .none)]⟩

/-- `Vm::literal_to_value` (`src/vm.rs`): numbers, strings and booleans map
to their value; a function literal compiles its body and captures the
current frame's bindings.  A map literal is not implemented there (the
compiler lowers map literals to `MakeMap`), so it yields `none` (panic), as
does a function body that does not compile. -/
def literal_to_value (lit : Literal) (top_bindings : BindingMap) : Option Value :=
  match lit with
  | .number q => some (.number q)
  | .charString s => some (.charString s)
  | .boolean b => some (.boolean b)
  | .fn params body =>
      match compileStatements body with
      | some iseq => some (.closure params (ClosureV.mk iseq top_bindings))
      | none => none
  | .map _ => none

/-- Modelled from the spec: `Closure::init_map` (`closure.rs` is not in the
source tree) builds the callee scope — a fresh `BindingMap` whose parent is
the closure's captured bindings, with the parameter bindings locally
assigned. -/
def ClosureV.init_map (c : ClosureV) (locals : List (String × Value)) : BindingMap :=
  locals.foldl (fun m p => m.local_assign p.1 p.2)
    (BindingMap.mk .nil (.some c.parent_bindings))

/-! ### Raise dispatch (`Vm::raise`, `src/vm.rs`) -/

/-- The per-frame search of `Vm::raise`: collect the matching handlers of
one frame in installation order and keep the first (`filter_map` +
`.first()` in the source). -/
def Frame.firstMatch (f : Frame) (v : Value) : Option (ExceptionHandler × List (String × Value)) :=
  (f.exception_handlers.filterMap
    (fun h => (h.matches v).map (fun b => (h, b)))).head?

/-- The frame-stack search of `Vm::raise`: frames are tried newest first
(the source iterates `frames.iter().rev()`; here the head is already the
newest frame) and the first frame with any matching handler provides the
handler (`filter_map` + `take(1)` + `.first()` in the source). -/
def findMatchedHandler (frames : List Frame) (v : Value) : Option (ExceptionHandler × List (String × Value)) :=
  (frames.filterMap (fun f => f.firstMatch v)).head?

/-- The handler-entry scope built by `Vm::raise`: a fresh `BindingMap`
whose parent is the handler closure's captured bindings, with the match
bindings locally assigned. -/
def dispatchBindings (h : ExceptionHandler) (b : List (String × Value)) : BindingMap :=
  b.foldl (fun m p => m.local_assign p.1 p.2)
    (BindingMap.mk .nil (.some h.closure.parent_bindings))

/-! ### The dispatch loop (`Vm::run`, `src/vm.rs`) -/

/-- Outcome of one iteration of `Vm::run`'s loop: a next state, a normal
halt (`next_instruction` returned `None` and the loop breaks), or a panic
of the interpreter process. -/
inductive StepResult where
  | ok (vm : Vm)
  | halt
  | fatal (msg : String)
  deriving DecidableEq, Repr

/-- A host function behind a `Native` instruction, as it interacts with the
VM (spec §4.5): it may read the current frame's bindings and the operand
stack, and yields a new stack plus the instruction sequence the VM adopts;
`none` is a host panic. -/
def NativeHook : Type :=
  NativeTag → BindingMap → List Value → Option (List Value × InsnList)

/-- The MakeMap pop loop: `size` iterations, each popping the value then
the key; yields the popped pairs in pop order and the remaining stack. -/
def popPairs : Nat → List Value → Option (List (Value × Value) × List Value)
  | 0, st => some ([], st)
  | n + 1, v :: k :: st =>
      match popPairs n st with
      | some (ps, st') => some ((k, v) :: ps, st')
      | none => none
  | _ + 1, _ => none

/-- `find_lib` (`src/native.rs`) and the two library values it returns:
maps of named closures whose bodies are single `Native` instructions
(`wrap_native_code`). -/
def wrap_native_code (args : List String) (t : NativeTag) : Value :=
  .closure args (ClosureV.mk (.cons (.native t) .nil) (BindingMap.mk .nil .none))

def file_lib : Value :=
  .map (.cons (.charString "read") (wrap_native_code ["path"] .fileRead)
    (.cons (.charString "write") (wrap_native_code ["path", "content"] .fileWrite) .nil))

def socket_lib : Value :=
  .map (.cons (.charString "tcp_connect") (wrap_native_code ["address"] .tcpConnect)
    (.cons (.charString "tcp_listen") (wrap_native_code ["address"] .tcpListen)
      (.cons (.charString "tcp_accept") (wrap_native_code ["socket", "fn"] .tcpAccept) .nil)))

def find_lib (name : String) : Option Value :=
  if name = "file" then some file_lib
  else if name = "socket" then some socket_lib
  else none

/-- One iteration of `Vm::run`'s loop: fetch the instruction at `pc`
(halting when past the end), advance `pc`, then execute the instruction's
arm.  Every arm mirrors the corresponding `match instruction` arm of
`src/vm.rs`; `fatal` stands for the arm's panics and `unwrap`s.  In the
BinOp arm an `Err` result is silently discarded (the source's
`else` branch holds only a `TODO: Raise` comment).  The `IndexAssign` arm
pops its three operands; the in-place mutation of the shared map is not
observable in this by-value model and no modelled property concerns it. -/
def Vm.step (nf : NativeHook) (vm : Vm) : StepResult :=
  match vm.instructions.get? vm.pc with
  | none => .halt
  | some insn =>
    let vm := { vm with pc := vm.pc + 1 }
    match insn with
    | .clear => .ok { vm with stack := [] }
    | .push lit =>
        match vm.frames with
        | [] => .fatal "no frame"
        | f :: _ =>
            match literal_to_value lit f.bindings with
            | some v => .ok { vm with stack := v :: vm.stack }
            | none => .fatal "not implemented literal_to_value"
    | .assign n =>
        match vm.stack, vm.frames with
        | v :: rest, f :: fs =>
            .ok { vm with stack := rest,
                          frames := { f with bindings := f.bindings.assign n v } :: fs }
        | _, _ => .fatal "unwrap"
    | .localAssign n =>
        match vm.stack, vm.frames with
        | v :: rest, f :: fs =>
            .ok { vm with stack := rest,
                          frames := { f with bindings := f.bindings.local_assign n v } :: fs }
        | _, _ => .fatal "unwrap"
    | .call argSize =>
        match vm.stack with
        | [] => .fatal "expected a closure, got None"
        | top :: rest =>
            if argSize ≤ rest.length then
              -- split_off(len - arg_size): the last argSize elements in Vec
              -- order, i.e. a1 … an with an on top
              let args := (rest.take argSize).reverse
              match top with
              | .closure params c =>
                  if argSize = params.length then
                    -- params.rev() zipped with args popped from the end
                    let localBindings := params.reverse.zip args.reverse
                    .ok { vm with stack := rest.drop argSize,
                                  instructions := c.instructions,
                                  pc := 0,
                                  frames := Frame.new (c.init_map localBindings) :: vm.frames }
                  else .fatal "wrong number of arguments"
              | _ => .fatal "expected a closure"
            else .fatal "stack underflow"
    | .fetch n =>
        match vm.frames with
        | [] => .fatal "no frame"
        | f :: _ =>
            match f.bindings.fetch n with
            | some v => .ok { vm with stack := v :: vm.stack }
            | none => .fatal "fetch: unbound name"
    | .makeMap size =>
        match popPairs size vm.stack with
        | some (pairs, rest) =>
            let m := Value.map (pairs.foldl (fun acc p => acc.insertEntry p.1 p.2) .nil)
            .ok { vm with stack := m :: rest }
        | none => .fatal "unwrap"
    | .rescue pat iseq =>
        match vm.frames with
        | [] => .fatal "no frame"
        | f :: fs =>
            .ok { vm with frames :=
              { f with exception_handlers :=
                  f.exception_handlers ++ [⟨pat, ClosureV.mk iseq f.bindings⟩] } :: fs }
    | .raise =>
        match vm.stack with
        | [] => .fatal "unwrap"
        | v :: rest =>
            let vm := { vm with stack := rest }
            match findMatchedHandler vm.frames v with
            | some (h, b) =>
                .ok { vm with instructions := h.closure.instructions,
                              pc := 0,
                              frames := Frame.new (dispatchBindings h b) :: vm.frames }
            | none => .ok vm
    | .binOp op =>
        match vm.stack with
        | right :: left :: rest =>
            match applyOp op left right with
            | .ok result => .ok { vm with stack := result :: rest }
            | .error _ => .ok { vm with stack := rest }
        | _ => .fatal "unwrap"
    | .indexAccess =>
        match vm.stack with
        | property :: target :: rest =>
            match target with
            | .map entries =>
                match entries.lookup property with
                | some v => .ok { vm with stack := v :: rest }
                | none => .fatal "no value for key"
            | _ => .fatal "cannot use index access"
        | _ => .fatal "unwrap"
    | .indexAssign =>
        match vm.stack with
        | _ :: _ :: .map _ :: rest => .ok { vm with stack := rest }
        | _ :: _ :: _ :: _ => .fatal "cannot use index access"
        | _ => .fatal "unwrap"
    | .importLib =>
        match vm.stack with
        | [] => .fatal "unwrap"
        | name :: rest =>
            match name with
            | .charString s =>
                match find_lib s with
                | some lib => .ok { vm with stack := lib :: rest }
                | none => .ok { vm with stack := rest }
            | _ => .fatal "import value must be a string"
    | .native t =>
        match vm.frames with
        | [] => .fatal "no frame"
        | f :: _ =>
            match nf t f.bindings vm.stack with
            | some (stack', iseq) =>
                .ok { vm with stack := stack', instructions := iseq, pc := 0 }
            | none => .fatal "native panic"

/-- `n` iterations of the dispatch loop. -/
def Vm.stepN (nf : NativeHook) : Nat → Vm → StepResult
  | 0, vm => .ok vm
  | n + 1, vm =>
      match vm.step nf with
      | .ok vm' => vm'.stepN nf n
      | r => r

/-- A native hook that panics on every call (used for concrete programs
that execute no `Native` instruction). -/
def noNative : NativeHook := fun _ _ _ => Option.none

/-! ### Native file functions (`src/native.rs`)

Real file I/O is abstracted by an oracle `fs` mapping a path to the file's
contents or to an error description (the OS message, e.g. "entity not
found" for a missing file). -/

/-- `io_result` (`src/native.rs`): a one-entry map wrapping a native
result or error. -/
def io_result (key : String) (value : Value) : Value :=
  .map (.cons (.charString key) value .nil)

/-- `read_file_contents` (`src/native.rs`) with `File::open` /
`read_to_string` abstracted by the oracle. -/
def read_file_contents (fs : String → Except String String) (path : String) :
    Except String String :=
  fs path

/-- `native_file_read` (`src/native.rs`): fetch the `path` parameter from
the current bindings (a non-string or missing binding is a host panic,
`none`), read the file, push exactly one result map onto the stack and
return the instruction sequence `[Raise]`. -/
def native_file_read (fs : String → Except String String)
    (bindings : BindingMap) (stack : List Value) :
    Option (List Value × InsnList) :=
  match bindings.fetch "path" with
  | some (.charString path) =>
      let result :=
        match read_file_contents fs path with
        | .ok content => io_result "file.result" (.charString content)
        | .error err => io_result "file.error" (.charString err)
      some (result :: stack, .cons .raise .nil)
  | some _ => none
  | none => none

/-- The type combinations the spec lists as supported by the arithmetic
operators: Number×Number for all four, plus CharString×CharString and
Map×Map for `+`. -/
def arithSupported (op : Op) (l r : Value) : Bool :=
  match l, r with
  | .number _, .number _ => true
  | .charString _, .charString _ => decide (op = Op.add)
  | .map _, .map _ => decide (op = Op.add)
  | _, _ => false

/-! ## Helper lemmas -/

/-- The head of `l.filterMap g` is the image of the first element on which
`g` answers, located by an index with nothing before it. -/
theorem head_filterMap_of_least {α β : Type _} (g : α → Option β) :
    ∀ (l : List α) (k : Nat) (x : α) (y : β),
      l[k]? = some x → g x = some y →
      (∀ k' x', k' < k → l[k']? = some x' → g x' = none) →
      (l.filterMap g).head? = some y := by
  intro l
  induction l with
  | nil => intro k x y hk _ _; simp at hk
  | cons a t ih =>
    intro k x y hk hx hlt
    cases k with
    | zero =>
      simp only [List.getElem?_cons_zero, Option.some.injEq] at hk
      subst hk
      simp [List.filterMap_cons, hx]
    | succ k =>
      have ha : g a = none := hlt 0 a (Nat.succ_pos k) (by simp)
      simp only [List.filterMap_cons, ha]
      exact ih k x y (by simpa using hk) hx
        (fun k' x' h1 h2 => hlt (k' + 1) x' (by omega) (by simpa using h2))

/-- If `g` answers nowhere on `l`, the filterMap is empty. -/
theorem head_filterMap_of_none {α β : Type _} (g : α → Option β) (l : List α)
    (h : ∀ a ∈ l, g a = none) : (l.filterMap g).head? = none := by
  rw [List.filterMap_eq_nil_iff.mpr h]
  rfl

/-- A frame none of whose handlers match contributes nothing to the
dispatch search. -/
theorem Frame.firstMatch_eq_none {f : Frame} {v : Value}
    (h : ∀ hd ∈ f.exception_handlers, hd.matches v = none) :
    f.firstMatch v = none := by
  unfold Frame.firstMatch
  exact head_filterMap_of_none _ _ (fun a ha => by rw [h a ha]; rfl)

/-- Within one frame the search picks the oldest-installed matching
handler: a matching handler at position `j` with no match before it. -/
theorem Frame.firstMatch_eq_some {f : Frame} {v : Value} {j : Nat}
    {h : ExceptionHandler} {b : List (String × Value)}
    (hj : f.exception_handlers[j]? = some h) (hm : h.matches v = some b)
    (hlt : ∀ j' h', j' < j → f.exception_handlers[j']? = some h' →
      h'.matches v = none) :
    f.firstMatch v = some (h, b) := by
  unfold Frame.firstMatch
  exact head_filterMap_of_least _ _ j h (h, b) hj (by rw [hm]; rfl)
    (fun k' x' h1 h2 => by rw [hlt k' x' h1 h2]; rfl)

/-- Across the frame stack the search picks the newest frame that has any
matching handler (frames are listed newest first). -/
theorem findMatchedHandler_eq_some {frames : List Frame} {v : Value} {i : Nat}
    {fi : Frame} {h : ExceptionHandler} {b : List (String × Value)}
    (hi : frames[i]? = some fi) (hf : fi.firstMatch v = some (h, b))
    (hlt : ∀ i' f', i' < i → frames[i']? = some f' → f'.firstMatch v = none) :
    findMatchedHandler frames v = some (h, b) := by
  unfold findMatchedHandler
  exact head_filterMap_of_least _ _ i fi (h, b) hi hf hlt

/-- When no handler of any frame matches, the search fails. -/
theorem findMatchedHandler_eq_none {frames : List Frame} {v : Value}
    (h : ∀ f ∈ frames, ∀ hd ∈ f.exception_handlers, hd.matches v = none) :
    findMatchedHandler frames v = none := by
  unfold findMatchedHandler
  exact head_filterMap_of_none _ _
    (fun f hf => Frame.firstMatch_eq_none (h f hf))

/-- An element located by index before position `i` lies in `take i`. -/
theorem mem_take_of_getElem? {α : Type _} {l : List α} {k i : Nat} {x : α}
    (hk : k < i) (h : l[k]? = some x) : x ∈ l.take i := by
  have h2 : (l.take i)[k]? = some x := by
    rw [List.getElem?_take]
    simp [hk, h]
  exact List.getElem?_mem h2

/-- One loop iteration never removes a frame: every arm of `Vm::run`
either keeps `frames` or pushes one frame. -/
theorem step_frames_mono (nf : NativeHook) (vm vm' : Vm)
    (h : vm.step nf = .ok vm') : vm.frames.length ≤ vm'.frames.length := by
  unfold Vm.step at h
  split at h
  · exact absurd h (by simp)
  · split at h
    all_goals simp only [] at h
    all_goals (repeat' split at h)
    all_goals (cases h)
    all_goals simp_all

/-! ## The claims -/

/-- C1: When a `Raise` instruction dispatches a value, the frame stack is
searched from the newest frame to the oldest (frames are listed newest
first here) and within each frame its installed handlers are tried from
oldest-installed to newest; the handler at the least such position — no
handler of any newer frame matches, and no older-installed handler of its
own frame matches — receives control: the VM switches to its body in a
fresh frame carrying the match bindings over the handler's captured
environment. -/
theorem c1_raise_dispatch_order (nf : NativeHook) (vm : Vm) (v : Value)
    (rest : List Value) (i j : Nat) (fi : Frame) (h : ExceptionHandler)
    (b : List (String × Value))
    (hinsn : vm.instructions.get? vm.pc = some Instruction.raise)
    (hstack : vm.stack = v :: rest)
    (hframe : vm.frames[i]? = some fi)
    (hhandler : fi.exception_handlers[j]? = some h)
    (hmatch : h.matches v = some b)
    (hnewer : ∀ f' ∈ vm.frames.take i, ∀ hd ∈ f'.exception_handlers,
        hd.matches v = none)
    (holderh : ∀ h' ∈ fi.exception_handlers.take j, h'.matches v = none) :
    vm.step nf = .ok { vm with instructions := h.closure.instructions, pc := 0,
                               stack := rest,
                               frames := Frame.new (dispatchBindings h b) :: vm.frames } := by
  have hfm : fi.firstMatch v = some (h, b) :=
    Frame.firstMatch_eq_some hhandler hmatch
      (fun j' h' hj' hh' => holderh h' (mem_take_of_getElem? hj' hh'))
  have hfind : findMatchedHandler vm.frames v = some (h, b) :=
    findMatchedHandler_eq_some hframe hfm
      (fun i' f' hi' hf' =>
        Frame.firstMatch_eq_none (hnewer f' (mem_take_of_getElem? hi' hf')))
  unfold Vm.step
  rw [hinsn]
  simp [hstack, hfind]

/-- Witness for C1 at a concrete state: two frames, the newest holding a
non-matching and a matching handler, the oldest holding a matching one;
dispatch picks the newest frame's oldest matching handler (index 1 of
frame 0 is skipped, index 1's handler at position (i,j) = (0,1) wins). -/
theorem c1_raise_dispatch_order_witness :
    ((InsnList.cons .raise .nil).get? 0 = some Instruction.raise)
    ∧ ([Value.number 7] = Value.number 7 :: [])
    ∧ (([⟨BindingMap.mk .nil .none,
          [⟨.charString "x", ClosureV.mk (.cons .clear .nil) (BindingMap.mk .nil .none)⟩,
           ⟨.identifier "id", ClosureV.mk (.cons .clear .nil) (BindingMap.mk .nil .none)⟩]⟩,
        ⟨BindingMap.mk .nil .none,
          [⟨.identifier "other", ClosureV.mk (.cons .clear .nil) (BindingMap.mk .nil .none)⟩]⟩] :
        List Frame)[0]? = some ⟨BindingMap.mk .nil .none,
          [⟨.charString "x", ClosureV.mk (.cons .clear .nil) (BindingMap.mk .nil .none)⟩,
           ⟨.identifier "id", ClosureV.mk (.cons .clear .nil) (BindingMap.mk .nil .none)⟩]⟩)
    ∧ (ExceptionHandler.matches
        ⟨.identifier "id", ClosureV.mk (.cons .clear .nil) (BindingMap.mk .nil .none)⟩
        (.number 7) = some [("id", .number 7)])
    ∧ (Vm.step noNative
        ⟨.cons .raise .nil, 0, [.number 7],
         [⟨BindingMap.mk .nil .none,
            [⟨.charString "x", ClosureV.mk (.cons .clear .nil) (BindingMap.mk .nil .none)⟩,
             ⟨.identifier "id", ClosureV.mk (.cons .clear .nil) (BindingMap.mk .nil .none)⟩]⟩,
          ⟨BindingMap.mk .nil .none,
            [⟨.identifier "other", ClosureV.mk (.cons .clear .nil) (BindingMap.mk .nil .none)⟩]⟩]⟩
        = .ok ⟨.cons .clear .nil, 0, [],
            Frame.new (dispatchBindings
              ⟨.identifier "id", ClosureV.mk (.cons .clear .nil) (BindingMap.mk .nil .none)⟩
              [("id", .number 7)]) ::
            [⟨BindingMap.mk .nil .none,
               [⟨.charString "x", ClosureV.mk (.cons .clear .nil) (BindingMap.mk .nil .none)⟩,
                ⟨.identifier "id", ClosureV.mk (.cons .clear .nil) (BindingMap.mk .nil .none)⟩]⟩,
             ⟨BindingMap.mk .nil .none,
               [⟨.identifier "other", ClosureV.mk (.cons .clear .nil) (BindingMap.mk .nil .none)⟩]⟩]⟩) :=
  ⟨by decide, by decide, by decide, by decide,
    c1_raise_dispatch_order noNative _ (.number 7) [] 0 1
      ⟨BindingMap.mk .nil .none,
        [⟨.charString "x", ClosureV.mk (.cons .clear .nil) (BindingMap.mk .nil .none)⟩,
         ⟨.identifier "id", ClosureV.mk (.cons .clear .nil) (BindingMap.mk .nil .none)⟩]⟩
      ⟨.identifier "id", ClosureV.mk (.cons .clear .nil) (BindingMap.mk .nil .none)⟩
      [("id", .number 7)]
      (by decide) rfl (by decide) (by decide) (by decide)
      (by decide) (by decide)⟩

/-- C2: If no installed handler of any frame matches the raised value,
executing `Raise` pops the raised value, discards it, and the VM continues
at the next instruction of the same sequence with no other change and no
error. -/
theorem c2_uncaught_raise_silently_dropped (nf : NativeHook) (vm : Vm)
    (v : Value) (rest : List Value)
    (hinsn : vm.instructions.get? vm.pc = some Instruction.raise)
    (hstack : vm.stack = v :: rest)
    (hnomatch : ∀ f ∈ vm.frames, ∀ hd ∈ f.exception_handlers,
        hd.matches v = none) :
    vm.step nf = .ok { vm with stack := rest, pc := vm.pc + 1 } := by
  have hfind : findMatchedHandler vm.frames v = none :=
    findMatchedHandler_eq_none hnomatch
  unfold Vm.step
  rw [hinsn]
  simp [hstack, hfind]

/-- Witness for C2: raising `7` with only a `Boolean true` handler
installed pops the value and moves to the next instruction. -/
theorem c2_uncaught_raise_silently_dropped_witness :
    ((InsnList.cons .raise (.cons .clear .nil)).get? 0 = some Instruction.raise)
    ∧ (∀ f ∈ ([⟨BindingMap.mk .nil .none,
          [⟨.boolean true, ClosureV.mk .nil (BindingMap.mk .nil .none)⟩]⟩] : List Frame),
        ∀ hd ∈ f.exception_handlers, hd.matches (.number 7) = none)
    ∧ (Vm.step noNative
        ⟨.cons .raise (.cons .clear .nil), 0, [.number 7],
         [⟨BindingMap.mk .nil .none,
           [⟨.boolean true, ClosureV.mk .nil (BindingMap.mk .nil .none)⟩]⟩]⟩
        = .ok ⟨.cons .raise (.cons .clear .nil), 1, [],
           [⟨BindingMap.mk .nil .none,
             [⟨.boolean true, ClosureV.mk .nil (BindingMap.mk .nil .none)⟩]⟩]⟩) :=
  ⟨by decide, by decide,
    c2_uncaught_raise_silently_dropped noNative _ (.number 7) []
      (by decide) rfl (by decide)⟩

/-- Frame count is monotone along any number of loop iterations. -/
theorem stepN_frames_mono (nf : NativeHook) :
    ∀ (n : Nat) (vm vm' : Vm), vm.stepN nf n = .ok vm' →
      vm.frames.length ≤ vm'.frames.length := by
  intro n
  induction n with
  | zero =>
      intro vm vm' h
      cases h
      exact Nat.le_refl _
  | succ n ih =>
      intro vm vm' h
      unfold Vm.stepN at h
      cases hs : vm.step nf with
      | ok vm1 =>
          rw [hs] at h
          exact Nat.le_trans (step_frames_mono nf vm vm1 hs) (ih vm1 vm' h)
      | halt => rw [hs] at h; exact absurd h (by simp)
      | fatal m => rw [hs] at h; exact absurd h (by simp)

/-- C3: No instruction ever pops a frame: over any execution the number of
frames is non-decreasing; and `Call` saves neither the caller's
instructions nor its `pc` — it replaces the instruction sequence with the
closure body, resets `pc` to 0, and pushes a fresh frame binding the
parameters over the closure's captured environment, leaving the existing
frames intact. -/
theorem c3_frames_never_popped :
    (∀ (nf : NativeHook) (n : Nat) (vm vm' : Vm),
        vm.stepN nf n = .ok vm' → vm.frames.length ≤ vm'.frames.length)
    ∧ (∀ (nf : NativeHook) (vm : Vm) (argSize : Nat) (params : List String)
        (c : ClosureV) (rest : List Value),
        vm.instructions.get? vm.pc = some (.call argSize) →
        vm.stack = .closure params c :: rest →
        argSize ≤ rest.length → argSize = params.length →
        vm.step nf = .ok { vm with
          instructions := c.instructions, pc := 0, stack := rest.drop argSize,
          frames := Frame.new (c.init_map (params.reverse.zip (rest.take argSize)))
            :: vm.frames }) := by
  constructor
  · exact fun nf n vm vm' h => stepN_frames_mono nf n vm vm' h
  · intro nf vm argSize params c rest hinsn hstack hlen harity
    subst harity
    unfold Vm.step
    rw [hinsn]
    simp [hstack, hlen, List.reverse_reverse]

/-- Witness for C3: a two-instruction program stepped twice keeps its one
frame, and a concrete two-argument call enters the closure with a second
frame binding `c ↦ 1`, `d ↦ 2`. -/
theorem c3_frames_never_popped_witness :
    (Vm.stepN noNative 2
        ⟨.cons .clear (.cons .clear .nil), 0, [], [Frame.new (BindingMap.mk .nil .none)]⟩
      = .ok ⟨.cons .clear (.cons .clear .nil), 2, [], [Frame.new (BindingMap.mk .nil .none)]⟩)
    ∧ (([Frame.new (BindingMap.mk .nil .none)] : List Frame).length ≤
        ([Frame.new (BindingMap.mk .nil .none)] : List Frame).length)
    ∧ ((InsnList.cons (.call 2) .nil).get? 0 = some (Instruction.call 2))
    ∧ ((2 : Nat) ≤ ([Value.number 2, Value.number 1] : List Value).length)
    ∧ (Vm.step noNative
        ⟨.cons (.call 2) .nil, 0,
         [.closure ["c", "d"] (ClosureV.mk (.cons .clear .nil) (BindingMap.mk .nil .none)),
          .number 2, .number 1],
         [Frame.new (BindingMap.mk .nil .none)]⟩
      = .ok ⟨(ClosureV.mk (.cons .clear .nil) (BindingMap.mk .nil .none)).instructions, 0,
          ([Value.number 2, Value.number 1] : List Value).drop 2,
          Frame.new ((ClosureV.mk (.cons .clear .nil) (BindingMap.mk .nil .none)).init_map
              ((["c", "d"] : List String).reverse.zip
                (([Value.number 2, Value.number 1] : List Value).take 2)))
            :: [Frame.new (BindingMap.mk .nil .none)]⟩) :=
  ⟨by decide,
   c3_frames_never_popped.1 noNative 2
     ⟨.cons .clear (.cons .clear .nil), 0, [], [Frame.new (BindingMap.mk .nil .none)]⟩
     ⟨.cons .clear (.cons .clear .nil), 2, [], [Frame.new (BindingMap.mk .nil .none)]⟩
     (by decide),
   by decide, by decide,
   c3_frames_never_popped.2 noNative
     ⟨.cons (.call 2) .nil, 0,
      [.closure ["c", "d"] (ClosureV.mk (.cons .clear .nil) (BindingMap.mk .nil .none)),
       .number 2, .number 1],
      [Frame.new (BindingMap.mk .nil .none)]⟩
     2 ["c", "d"] (ClosureV.mk (.cons .clear .nil) (BindingMap.mk .nil .none))
     [.number 2, .number 1] (by decide) rfl (by decide) (by decide)⟩

/-- C10: Dispatching a `Raise` removes nothing: every previously existing
frame survives with its handler list intact (the frame stack is either
unchanged, or extended by one fresh frame that itself has no handlers), so
an installed handler remains installed after firing and can fire again. -/
theorem c10_dispatch_preserves_handlers (nf : NativeHook) (vm : Vm)
    (v : Value) (rest : List Value)
    (hinsn : vm.instructions.get? vm.pc = some Instruction.raise)
    (hstack : vm.stack = v :: rest) :
    ∃ vm', vm.step nf = .ok vm' ∧
      (vm'.frames = vm.frames ∨
        ∃ fnew, fnew.exception_handlers = [] ∧ vm'.frames = fnew :: vm.frames) := by
  unfold Vm.step
  rw [hinsn]
  simp only [hstack]
  cases hcase : findMatchedHandler vm.frames v with
  | none =>
      exact ⟨{ vm with stack := rest, pc := vm.pc + 1 }, by simp [hcase], Or.inl rfl⟩
  | some pair =>
      obtain ⟨h, b⟩ := pair
      exact ⟨{ vm with instructions := h.closure.instructions, pc := 0,
                       stack := rest,
                       frames := Frame.new (dispatchBindings h b) :: vm.frames },
        by simp [hcase], Or.inr ⟨Frame.new (dispatchBindings h b), rfl, rfl⟩⟩

/-- Witness for C10 at a concrete matched raise: the frame with its
handler is still on the stack afterwards, under the new handler frame. -/
theorem c10_dispatch_preserves_handlers_witness :
    ((InsnList.cons .raise .nil).get? 0 = some Instruction.raise)
    ∧ (∃ vm', Vm.step noNative
        ⟨.cons .raise .nil, 0, [.number 7],
         [⟨BindingMap.mk .nil .none,
           [⟨.identifier "id", ClosureV.mk (.cons .clear .nil) (BindingMap.mk .nil .none)⟩]⟩]⟩
        = .ok vm' ∧
        (vm'.frames =
            [⟨BindingMap.mk .nil .none,
              [⟨.identifier "id", ClosureV.mk (.cons .clear .nil) (BindingMap.mk .nil .none)⟩]⟩] ∨
          ∃ fnew, fnew.exception_handlers = [] ∧
            vm'.frames = fnew ::
              [⟨BindingMap.mk .nil .none,
                [⟨.identifier "id", ClosureV.mk (.cons .clear .nil) (BindingMap.mk .nil .none)⟩]⟩])) :=
  ⟨by decide,
    c10_dispatch_preserves_handlers noNative _ (.number 7) [] (by decide) rfl⟩

/-- Counterexample to C7 as stated: adding `Boolean true` to a number does
not terminate the VM — the step succeeds, both operands are gone, and
execution continues at the next instruction (the BinOp arm of `Vm::run`
silently drops an `Err` result; its else-branch holds only a `TODO: Raise`
comment). -/
theorem c7_binop_type_error_counterexample :
    Vm.step noNative
      ⟨.cons (.binOp .add) .nil, 0, [.boolean true, .number 1],
       [Frame.new (BindingMap.mk .nil .none)]⟩
    = .ok ⟨.cons (.binOp .add) .nil, 1, [], [Frame.new (BindingMap.mk .nil .none)]⟩ := by
  decide

/-- C7 (amended): an arithmetic `BinOp` on an unsupported type combination
(anything but Number×Number, plus CharString×CharString and Map×Map for
`+`) produces an error value, and the VM then pops both operands, pushes
nothing, signals no error and continues at the next instruction. -/
theorem c7_binop_type_error_amended :
    (∀ (op : Op) (l r : Value), op ∈ [Op.add, Op.sub, Op.mul, Op.div] →
        arithSupported op l r = false → ∃ e, applyOp op l r = .error e)
    ∧ (∀ (nf : NativeHook) (vm : Vm) (op : Op) (l r : Value)
        (rest : List Value) (e : String),
        vm.instructions.get? vm.pc = some (.binOp op) →
        vm.stack = r :: l :: rest →
        applyOp op l r = .error e →
        vm.step nf = .ok { vm with stack := rest, pc := vm.pc + 1 }) := by
  constructor
  · intro op l r hop hsup
    fin_cases hop <;> cases l <;> cases r <;>
      simp_all [arithSupported, applyOp, Value.add, Value.sub, Value.mul, Value.div]
  · intro nf vm op l r rest e hinsn hstack herr
    unfold Vm.step
    rw [hinsn]
    simp [hstack, herr]

/-- Witness for the amended C7 at `true + 1`: the operation errors and the
step continues with both operands popped. -/
theorem c7_binop_type_error_amended_witness :
    (Op.add ∈ [Op.add, Op.sub, Op.mul, Op.div])
    ∧ (arithSupported .add (.number 1) (.boolean true) = false)
    ∧ (∃ e, applyOp .add (.number 1) (.boolean true) = .error e)
    ∧ (applyOp .add (.number 1) (.boolean true) =
        .error "cannot add values of these types")
    ∧ (Vm.step noNative
        ⟨.cons (.binOp .add) .nil, 0, [.boolean true, .number 1],
         [Frame.new (BindingMap.mk .nil .none)]⟩
      = .ok ⟨.cons (.binOp .add) .nil, 1, [],
         [Frame.new (BindingMap.mk .nil .none)]⟩) :=
  ⟨by decide, by decide,
   c7_binop_type_error_amended.1 .add (.number 1) (.boolean true)
     (by decide) (by decide),
   rfl,
   c7_binop_type_error_amended.2 noNative
     ⟨.cons (.binOp .add) .nil, 0, [.boolean true, .number 1],
      [Frame.new (BindingMap.mk .nil .none)]⟩
     .add (.number 1) (.boolean true) [] "cannot add values of these types"
     (by decide) rfl rfl⟩

/-- Counterexample to C8 as stated: `Import` of the unknown name "oops"
does not leave the operand stack unchanged — the name is popped and the
stack afterwards is empty, not the original one-element stack. -/
theorem c8_import_unknown_counterexample :
    (Vm.step noNative
        ⟨.cons .importLib .nil, 0, [.charString "oops"],
         [Frame.new (BindingMap.mk .nil .none)]⟩
      = .ok ⟨.cons .importLib .nil, 1, [], [Frame.new (BindingMap.mk .nil .none)]⟩)
    ∧ (([] : List Value) ≠ [Value.charString "oops"]) := by
  decide

/-- C8 (amended): executing `Import` with a `CharString` on top that does
not name a built-in library pops the name, pushes nothing and signals no
error, so the stack afterwards is the stack before with the top element
removed; execution continues at the next instruction. -/
theorem c8_import_unknown_amended (nf : NativeHook) (vm : Vm) (s : String)
    (rest : List Value)
    (hinsn : vm.instructions.get? vm.pc = some Instruction.importLib)
    (hstack : vm.stack = .charString s :: rest)
    (hmiss : find_lib s = none) :
    vm.step nf = .ok { vm with stack := rest, pc := vm.pc + 1 } := by
  unfold Vm.step
  rw [hinsn]
  simp [hstack, hmiss]

/-- Witness for the amended C8 at the unknown library name "oops". -/
theorem c8_import_unknown_amended_witness :
    ((InsnList.cons .importLib .nil).get? 0 = some Instruction.importLib)
    ∧ (find_lib "oops" = none)
    ∧ (Vm.step noNative
        ⟨.cons .importLib .nil, 0, [.charString "oops", .number 3],
         [Frame.new (BindingMap.mk .nil .none)]⟩
      = .ok ⟨.cons .importLib .nil, 1, [.number 3],
         [Frame.new (BindingMap.mk .nil .none)]⟩) :=
  ⟨by decide, by decide,
   c8_import_unknown_amended noNative
     ⟨.cons .importLib .nil, 0, [.charString "oops", .number 3],
      [Frame.new (BindingMap.mk .nil .none)]⟩
     "oops" [.number 3] (by decide) rfl (by decide)⟩

/-- C9: `native_file_read`, with a `CharString` bound to the parameter
`path`, pushes exactly one value — the one-entry map
`{"file.result" → contents}` when the file reads, `{"file.error" →
message}` otherwise — and returns the instruction sequence `[Raise]` for
the VM to execute next. -/
theorem c9_native_file_read_contract (fs : String → Except String String)
    (bindings : BindingMap) (stack : List Value) (path : String)
    (hpath : bindings.fetch "path" = some (.charString path)) :
    (∀ content, fs path = .ok content →
        native_file_read fs bindings stack =
          some (Value.map (.cons (.charString "file.result") (.charString content) .nil)
              :: stack,
            .cons .raise .nil))
    ∧ (∀ err, fs path = .error err →
        native_file_read fs bindings stack =
          some (Value.map (.cons (.charString "file.error") (.charString err) .nil)
              :: stack,
            .cons .raise .nil)) := by
  constructor
  · intro content hc
    unfold native_file_read read_file_contents
    rw [hpath]
    simp [hc, io_result]
  · intro err he
    unfold native_file_read read_file_contents
    rw [hpath]
    simp [he, io_result]

/-- Witness for C9: a concrete oracle with one readable file; reading it
pushes `{"file.result" → "file content"}`, reading a missing path pushes
`{"file.error" → "entity not found"}`, both returning `[Raise]`. -/
theorem c9_native_file_read_contract_witness :
    ((BindingMap.mk (.cons "path" (.charString "a.txt") .nil) .none).fetch "path"
        = some (.charString "a.txt"))
    ∧ (native_file_read
        (fun p => if p = "a.txt" then Except.ok "file content"
                  else Except.error "entity not found")
        (BindingMap.mk (.cons "path" (.charString "a.txt") .nil) .none) [] =
        some ([Value.map (.cons (.charString "file.result") (.charString "file content") .nil)],
          .cons .raise .nil))
    ∧ (native_file_read
        (fun p => if p = "a.txt" then Except.ok "file content"
                  else Except.error "entity not found")
        (BindingMap.mk (.cons "path" (.charString "missing.txt") .nil) .none) [] =
        some ([Value.map (.cons (.charString "file.error") (.charString "entity not found") .nil)],
          .cons .raise .nil)) :=
  ⟨by decide,
   (c9_native_file_read_contract
       (fun p => if p = "a.txt" then Except.ok "file content"
                 else Except.error "entity not found")
       (BindingMap.mk (.cons "path" (.charString "a.txt") .nil) .none) [] "a.txt"
       (by decide)).1 "file content" rfl,
   (c9_native_file_read_contract
       (fun p => if p = "a.txt" then Except.ok "file content"
                 else Except.error "entity not found")
       (BindingMap.mk (.cons "path" (.charString "missing.txt") .nil) .none) [] "missing.txt"
       (by decide)).2 "entity not found" rfl⟩

/-- Lookup after insert-or-update: the inserted key reads back the new
value, every other key is untouched. -/
theorem lookup_insertEntry : ∀ (m : EntryList) (k v key : Value),
    (m.insertEntry k v).lookup key = if k = key then some v else m.lookup key
  | .nil, k, v, key => by
      simp [EntryList.insertEntry, EntryList.lookup]
  | .cons k' v' rest, k, v, key => by
      have ih := lookup_insertEntry rest k v key
      by_cases h1 : k' = k <;> by_cases h2 : k = key <;> by_cases h3 : k' = key <;>
        simp_all [EntryList.insertEntry, EntryList.lookup]

/-- A key outside a map's key list has no entry. -/
theorem lookup_eq_none_of_not_mem_keys : ∀ (m : EntryList) (key : Value),
    key ∉ m.keys → m.lookup key = none
  | .nil, _, _ => rfl
  | .cons k v rest, key, h => by
      have hk : ¬ (k = key) := fun he => h (by simp [EntryList.keys, he])
      have ih := lookup_eq_none_of_not_mem_keys rest key
        (fun hm => h (by simp [EntryList.keys, hm]))
      simp [EntryList.lookup, hk, ih]

/-- Lookup in an overlay: a key of the right map reads the right map's
value, any other key reads the left map. -/
theorem lookup_overlay : ∀ (m2 m1 : EntryList), m2.keys.Nodup →
    ∀ key, (m1.overlay m2).lookup key =
      match m2.lookup key with
      | some v => some v
      | none => m1.lookup key
  | .nil, m1, _, key => by
      simp [EntryList.overlay, EntryList.lookup]
  | .cons k v rest, m1, hnd, key => by
      have hnd' : k ∉ rest.keys ∧ rest.keys.Nodup := by
        have : (k :: rest.keys).Nodup := by simpa [EntryList.keys] using hnd
        exact ⟨(List.nodup_cons.mp this).1, (List.nodup_cons.mp this).2⟩
      have ih := lookup_overlay rest (m1.insertEntry k v) hnd'.2 key
      by_cases h2 : k = key
      · subst h2
        have hr : rest.lookup k = none :=
          lookup_eq_none_of_not_mem_keys rest k hnd'.1
        simp [EntryList.overlay, EntryList.lookup, ih, hr, lookup_insertEntry]
      · simp [EntryList.overlay, EntryList.lookup, h2, ih, lookup_insertEntry]

/-- C6: `m1 + m2` on maps yields a new map whose key set is the union of
both key sets, where a key present in `m2` reads `m2`'s value and every
other key reads `m1`'s value; and the BinOp arm pushes exactly that map
(the operands are consumed from the stack, the argument maps themselves
are freshly combined, not written through). -/
theorem c6_map_add_right_biased_union (m1 m2 : EntryList) (hu : m2.keys.Nodup) :
    (Value.add (.map m1) (.map m2) = .ok (.map (m1.overlay m2)))
    ∧ (∀ k v, m2.lookup k = some v → (m1.overlay m2).lookup k = some v)
    ∧ (∀ k, m2.lookup k = none → (m1.overlay m2).lookup k = m1.lookup k)
    ∧ (∀ k, ((m1.overlay m2).lookup k).isSome ↔
        ((m1.lookup k).isSome ∨ (m2.lookup k).isSome))
    ∧ (∀ (nf : NativeHook) (vm : Vm) (rest : List Value),
        vm.instructions.get? vm.pc = some (.binOp .add) →
        vm.stack = .map m2 :: .map m1 :: rest →
        vm.step nf = .ok { vm with stack := .map (m1.overlay m2) :: rest,
                                   pc := vm.pc + 1 }) := by
  refine ⟨rfl, ?_, ?_, ?_, ?_⟩
  · intro k v hk
    rw [lookup_overlay m2 m1 hu k, hk]
  · intro k hk
    rw [lookup_overlay m2 m1 hu k, hk]
  · intro k
    rw [lookup_overlay m2 m1 hu k]
    cases h2 : m2.lookup k <;> cases h1 : m1.lookup k <;> simp
  · intro nf vm rest hinsn hstack
    unfold Vm.step
    rw [hinsn]
    simp [hstack, applyOp, Value.add]

/-- Witness for C6 on the maps of the in-tree `maps` test:
`{"c"→1, "b"→2} + {"e"→3}`. -/
theorem c6_map_add_right_biased_union_witness :
    ((EntryList.cons (Value.charString "e") (.number 3) .nil).keys.Nodup)
    ∧ (Value.add
        (.map (.cons (.charString "c") (.number 1)
          (.cons (.charString "b") (.number 2) .nil)))
        (.map (.cons (.charString "e") (.number 3) .nil))
      = .ok (.map ((EntryList.cons (Value.charString "c") (.number 1)
          (.cons (.charString "b") (.number 2) .nil)).overlay
            (.cons (.charString "e") (.number 3) .nil))))
    ∧ (((EntryList.cons (Value.charString "c") (.number 1)
          (.cons (.charString "b") (.number 2) .nil)).overlay
            (.cons (.charString "e") (.number 3) .nil)).lookup
          (.charString "e") = some (.number 3)) :=
  ⟨by decide,
   (c6_map_add_right_biased_union
     (.cons (.charString "c") (.number 1) (.cons (.charString "b") (.number 2) .nil))
     (.cons (.charString "e") (.number 3) .nil) (by decide)).1,
   (c6_map_add_right_biased_union
     (.cons (.charString "c") (.number 1) (.cons (.charString "b") (.number 2) .nil))
     (.cons (.charString "e") (.number 3) .nil) (by decide)).2.1
     (.charString "e") (.number 3) (by decide)⟩

/-- Writing a name into one scope makes it read back. -/
theorem lookupName_setName_self : ∀ (b : Bindings) (n : String) (v : Value),
    (b.setName n v).lookupName n = some v
  | .nil, n, v => by simp [Bindings.setName, Bindings.lookupName]
  | .cons m w rest, n, v => by
      by_cases h : m = n <;>
        simp [Bindings.setName, Bindings.lookupName, h,
          lookupName_setName_self rest n v]

/-- A scope chain's membership test is the disjunction over its scopes. -/
theorem hasName_eq_chain_any : ∀ (m : BindingMap) (n : String),
    m.hasName n = m.chain.any (fun b => b.hasName n)
  | .mk locals .none, n => by
      simp [BindingMap.hasName, BindingMap.chain]
  | .mk locals (.some p), n => by
      simp [BindingMap.hasName, BindingMap.chain, hasName_eq_chain_any p n]

/-- `assign` when some scope up the chain defines the name: exactly the
nearest such scope (depth `d`, nothing defining the name before it) is
rewritten; every other scope of the chain is untouched. -/
theorem assign_chain_found : ∀ (m : BindingMap) (name : String) (v : Value)
    (d : Nat) (s : Bindings),
    m.chain[d]? = some s → s.hasName name = true →
    (∀ s' ∈ m.chain.take d, s'.hasName name = false) →
    ∀ k, (m.assign name v).chain[k]? =
      if k = d then some (s.setName name v) else m.chain[k]?
  | .mk locals parent, name, v, 0, s, hd, hs, _, k => by
      have hls : locals = s := by
        cases parent <;> simpa [BindingMap.chain] using hd
      subst hls
      have hln : locals.hasName name = true := hs
      cases parent <;>
        cases k <;>
          simp [BindingMap.assign, BindingMap.chain, hln]
  | .mk locals (.none), name, v, (d + 1), s, hd, hs, htake, k => by
      simp [BindingMap.chain] at hd
  | .mk locals (.some p), name, v, (d + 1), s, hd, hs, htake, k => by
      have hdp : p.chain[d]? = some s := by
        simpa [BindingMap.chain] using hd
      have hln : locals.hasName name = false := by
        have : locals ∈ (BindingMap.mk locals (.some p)).chain.take (d + 1) := by
          simp [BindingMap.chain]
        exact htake locals this
      have htakep : ∀ s' ∈ p.chain.take d, s'.hasName name = false := by
        intro s' hs'
        exact htake s' (by simp [BindingMap.chain, hs'])
      have hpn : p.hasName name = true := by
        rw [hasName_eq_chain_any]
        exact List.any_eq_true.mpr ⟨s, List.getElem?_mem hdp, hs⟩
      have ih := assign_chain_found p name v d s hdp hs htakep
      cases k with
      | zero => simp [BindingMap.assign, BindingMap.chain, hln, hpn]
      | succ i =>
          have := ih i
          simp only [BindingMap.assign, BindingMap.chain, hln, hpn] at *
          simpa [Nat.succ_inj] using this
  termination_by m => sizeOf m

/-- `assign` when no scope of the chain defines the name: the current
scope receives the binding, every other scope is untouched. -/
theorem assign_chain_notfound : ∀ (m : BindingMap) (name : String) (v : Value),
    (∀ s ∈ m.chain, s.hasName name = false) →
    ∀ k, (m.assign name v).chain[k]? =
      if k = 0 then some (m.locals.setName name v) else m.chain[k]?
  | .mk locals .none, name, v, _, k => by
      by_cases hln : locals.hasName name <;>
        cases k <;>
          simp [BindingMap.assign, BindingMap.chain, BindingMap.locals, hln]
  | .mk locals (.some p), name, v, h, k => by
      have hln : locals.hasName name = false :=
        h locals (by simp [BindingMap.chain])
      have hpn : p.hasName name = false := by
        rw [hasName_eq_chain_any, List.any_eq_false]
        intro s hsmem
        simp [h s (by simp [BindingMap.chain, hsmem])]
      cases k <;>
        simp [BindingMap.assign, BindingMap.chain, BindingMap.locals, hln, hpn]

/-- C4: `LocalAssign(name)` (emitted for `let`) always writes the popped
value into the current scope — the written name reads back there and the
parent chain is structurally untouched, so any binding of the same name in
a parent scope is unchanged; `Assign(name)` (plain `x = e`) writes to the
nearest scope of the chain that already defines the name (depth `d`, every
scope before it lacking the name, is the only scope rewritten) and falls
back to the current scope only when no scope of the chain defines it. -/
theorem c4_let_vs_assign_scoping :
    (∀ (nf : NativeHook) (vm : Vm) (name : String) (v : Value)
        (rest : List Value) (f : Frame) (fs : List Frame),
        vm.instructions.get? vm.pc = some (.localAssign name) →
        vm.stack = v :: rest → vm.frames = f :: fs →
        vm.step nf = .ok { vm with
          stack := rest,
          frames := { f with bindings := f.bindings.local_assign name v } :: fs,
          pc := vm.pc + 1 })
    ∧ (∀ (m : BindingMap) (name : String) (v : Value),
        (m.local_assign name v).locals.lookupName name = some v
        ∧ (m.local_assign name v).parent = m.parent)
    ∧ (∀ (nf : NativeHook) (vm : Vm) (name : String) (v : Value)
        (rest : List Value) (f : Frame) (fs : List Frame),
        vm.instructions.get? vm.pc = some (.assign name) →
        vm.stack = v :: rest → vm.frames = f :: fs →
        vm.step nf = .ok { vm with
          stack := rest,
          frames := { f with bindings := f.bindings.assign name v } :: fs,
          pc := vm.pc + 1 })
    ∧ (∀ (m : BindingMap) (name : String) (v : Value) (d : Nat) (s : Bindings),
        m.chain[d]? = some s → s.hasName name = true →
        (∀ s' ∈ m.chain.take d, s'.hasName name = false) →
        ∀ k, (m.assign name v).chain[k]? =
          if k = d then some (s.setName name v) else m.chain[k]?)
    ∧ (∀ (m : BindingMap) (name : String) (v : Value),
        (∀ s ∈ m.chain, s.hasName name = false) →
        ∀ k, (m.assign name v).chain[k]? =
          if k = 0 then some (m.locals.setName name v) else m.chain[k]?) := by
  refine ⟨?_, ?_, ?_,
    fun m name v d s hd hs ht => assign_chain_found m name v d s hd hs ht,
    fun m name v h => assign_chain_notfound m name v h⟩
  · intro nf vm name v rest f fs hinsn hstack hframes
    unfold Vm.step
    rw [hinsn]
    simp [hstack, hframes]
  · intro m name v
    cases m with
    | mk locals parent => exact ⟨lookupName_setName_self locals name v, rfl⟩
  · intro nf vm name v rest f fs hinsn hstack hframes
    unfold Vm.step
    rw [hinsn]
    simp [hstack, hframes]

/-- Witness for C4 on the two-scope chain `{a ↦ 0} → parent {b ↦ 9}`:
`local_assign "b"` writes the current scope and keeps the parent; `assign
"b"` rewrites exactly the parent scope (depth 1); `assign "zzz"` falls
back to the current scope. -/
theorem c4_let_vs_assign_scoping_witness :
    (((BindingMap.mk (.cons "a" (.number 0) .nil)
          (.some (BindingMap.mk (.cons "b" (.number 9) .nil) .none))).local_assign
        "b" (.number 5)).locals.lookupName "b" = some (.number 5)
      ∧ ((BindingMap.mk (.cons "a" (.number 0) .nil)
            (.some (BindingMap.mk (.cons "b" (.number 9) .nil) .none))).local_assign
          "b" (.number 5)).parent =
        (BindingMap.mk (.cons "a" (.number 0) .nil)
          (.some (BindingMap.mk (.cons "b" (.number 9) .nil) .none))).parent)
    ∧ (((BindingMap.mk (.cons "a" (.number 0) .nil)
          (.some (BindingMap.mk (.cons "b" (.number 9) .nil) .none))).assign
        "b" (.number 5)).chain[1]? =
          some ((Bindings.cons "b" (.number 9) .nil).setName "b" (.number 5)))
    ∧ (((BindingMap.mk (.cons "a" (.number 0) .nil)
          (.some (BindingMap.mk (.cons "b" (.number 9) .nil) .none))).assign
        "b" (.number 5)).chain[0]? =
          some (.cons "a" (.number 0) .nil))
    ∧ (((BindingMap.mk (.cons "a" (.number 0) .nil)
          (.some (BindingMap.mk (.cons "b" (.number 9) .nil) .none))).assign
        "zzz" (.number 5)).chain[0]? =
          some ((Bindings.cons "a" (.number 0) .nil).setName "zzz" (.number 5)))
    ∧ (Vm.step noNative
        ⟨.cons (.localAssign "b") .nil, 0, [.number 5],
         [Frame.new (BindingMap.mk (.cons "a" (.number 0) .nil)
            (.some (BindingMap.mk (.cons "b" (.number 9) .nil) .none)))]⟩
      = .ok ⟨.cons (.localAssign "b") .nil, 1, [],
          [{ bindings := (BindingMap.mk (.cons "a" (.number 0) .nil)
               (.some (BindingMap.mk (.cons "b" (.number 9) .nil) .none))).local_assign
                 "b" (.number 5),
             exception_handlers := [] }]⟩) := by
  refine ⟨c4_let_vs_assign_scoping.2.1
      (BindingMap.mk (.cons "a" (.number 0) .nil)
        (.some (BindingMap.mk (.cons "b" (.number 9) .nil) .none))) "b" (.number 5),
    ?_, ?_, ?_, ?_⟩
  · simpa using
      c4_let_vs_assign_scoping.2.2.2.1
        (BindingMap.mk (.cons "a" (.number 0) .nil)
          (.some (BindingMap.mk (.cons "b" (.number 9) .nil) .none)))
        "b" (.number 5) 1 (.cons "b" (.number 9) .nil)
        (by decide) (by decide) (by decide) 1
  · decide
  · simpa using
      c4_let_vs_assign_scoping.2.2.2.2
        (BindingMap.mk (.cons "a" (.number 0) .nil)
          (.some (BindingMap.mk (.cons "b" (.number 9) .nil) .none)))
        "zzz" (.number 5) (by decide) 0
  · exact
      c4_let_vs_assign_scoping.1 noNative
        ⟨.cons (.localAssign "b") .nil, 0, [.number 5],
         [Frame.new (BindingMap.mk (.cons "a" (.number 0) .nil)
            (.some (BindingMap.mk (.cons "b" (.number 9) .nil) .none)))]⟩
        "b" (.number 5) [] _ [] (by decide) rfl rfl

/-- Writing one name leaves every other name's binding in the scope
unchanged. -/
theorem lookupName_setName_other : ∀ (b : Bindings) (m n : String) (v : Value),
    m ≠ n → (b.setName m v).lookupName n = b.lookupName n
  | .nil, m, n, v, h => by
      simp [Bindings.setName, Bindings.lookupName, h]
  | .cons m' w rest, m, n, v, h => by
      by_cases h1 : m' = m <;> by_cases h2 : m' = n <;>
        simp_all [Bindings.setName, Bindings.lookupName,
          lookupName_setName_other rest m n v h]

/-- Folding writes for other names does not disturb a name's binding. -/
theorem foldl_setName_not_mem : ∀ (ps : List (String × Value)) (b0 : Bindings)
    (n : String), n ∉ ps.map Prod.fst →
    (ps.foldl (fun b p => b.setName p.1 p.2) b0).lookupName n = b0.lookupName n
  | [], _, _, _ => rfl
  | (m, w) :: rest, b0, n, h => by
      have hmn : m ≠ n := fun he => h (by simp [he])
      have hrest : n ∉ rest.map Prod.fst := fun he => h (by simp [he])
      rw [List.foldl_cons, foldl_setName_not_mem rest _ n hrest]
      exact lookupName_setName_other b0 m n w hmn

/-- Folding a duplicate-free list of writes over a scope makes each
written name read back its value. -/
theorem foldl_setName_mem : ∀ (ps : List (String × Value)) (b0 : Bindings)
    (n : String) (v : Value), (ps.map Prod.fst).Nodup → (n, v) ∈ ps →
    (ps.foldl (fun b p => b.setName p.1 p.2) b0).lookupName n = some v
  | [], _, n, v, _, hmem => absurd hmem (List.not_mem_nil _)
  | (m, w) :: rest, b0, n, v, hnd, hmem => by
      have hnd' : m ∉ rest.map Prod.fst ∧ (rest.map Prod.fst).Nodup := by
        have : (m :: rest.map Prod.fst).Nodup := by simpa using hnd
        exact ⟨(List.nodup_cons.mp this).1, (List.nodup_cons.mp this).2⟩
      rcases List.mem_cons.mp hmem with heq | hmem'
      · have hn : n = m := congrArg Prod.fst heq
        have hv : v = w := congrArg Prod.snd heq
        subst hn; subst hv
        rw [List.foldl_cons, foldl_setName_not_mem rest _ n hnd'.1]
        exact lookupName_setName_self b0 n v
      · rw [List.foldl_cons]
        exact foldl_setName_mem rest _ n v hnd'.2 hmem'

/-- A pair read off the same index of two lists lies in their zip. -/
theorem mem_zip_of_getElem? {α β : Type _} : ∀ (l1 : List α) (l2 : List β)
    (i : Nat) (x : α) (y : β),
    l1[i]? = some x → l2[i]? = some y → (x, y) ∈ l1.zip l2
  | [], _, i, x, y, hx, _ => by simp at hx
  | _ :: _, [], i, x, y, _, hy => by simp at hy
  | a :: t, b :: u, 0, x, y, hx, hy => by
      simp only [List.getElem?_cons_zero, Option.some.injEq] at hx hy
      subst hx; subst hy
      simp [List.zip_cons_cons]
  | a :: t, b :: u, i + 1, x, y, hx, hy => by
      simp only [List.getElem?_cons_succ] at hx hy
      exact List.mem_cons.mpr (Or.inr (mem_zip_of_getElem? t u i x y hx hy))

/-- Folding `local_assign` over a binding map only grows its local scope. -/
theorem foldl_local_assign_mk : ∀ (ps : List (String × Value)) (b0 : Bindings)
    (par : OptBindingMap),
    ps.foldl (fun m p => m.local_assign p.1 p.2) (BindingMap.mk b0 par) =
      BindingMap.mk (ps.foldl (fun b p => b.setName p.1 p.2) b0) par
  | [], _, _ => rfl
  | (m, w) :: rest, b0, par => by
      rw [List.foldl_cons, List.foldl_cons]
      exact foldl_local_assign_mk rest (b0.setName m w) par

/-- Each parameter bound by `Closure::init_map` (duplicate-free names)
reads back its argument in the callee scope. -/
theorem init_map_fetch (c : ClosureV) (ps : List (String × Value)) (n : String)
    (v : Value) (hnd : (ps.map Prod.fst).Nodup) (hmem : (n, v) ∈ ps) :
    (c.init_map ps).fetch n = some v := by
  unfold ClosureV.init_map
  rw [foldl_local_assign_mk]
  simp [BindingMap.fetch, foldl_setName_mem ps .nil n v hnd hmem]

/-- Counterexample to C5 as stated: with the operand stack laid out
`[…, closure, a1, a2]` as the claim says (closure below the arguments),
`Call(2)` does not pop the Closure — it pops `a2`, finds a Number where a
closure is expected, and the VM panics instead of entering the callee. -/
theorem c5_call_layout_counterexample :
    Vm.step noNative
      ⟨.cons (.call 2) .nil, 0,
       [.number 2, .number 1,
        .closure ["c", "d"] (ClosureV.mk (.cons .clear .nil) (BindingMap.mk .nil .none))],
       [Frame.new (BindingMap.mk .nil .none)]⟩
    = .fatal "expected a closure" := by
  decide

/-- C5 (amended): a call statement compiles to the arguments left-to-right,
then `Fetch(f)` — so the closure, not `an`, ends on top — then `Call(n)`;
at `Call` time the operand stack is `[…, a1, …, an, closure]`, and `Call(n)`
pops the Closure from the top, pops the `n` arguments below it, and binds
the parameter names to the arguments in declaration order. -/
theorem c5_call_compilation_amended :
    (∀ (f : String) (args : ExprList) (ac : InsnList),
        compileExprList args = some ac →
        compileStatement (.call f args) =
          some (ac.append (.cons (.fetch f)
            (.cons (.call args.length) (.cons .clear .nil)))))
    ∧ (∀ (nf : NativeHook) (vm : Vm) (argSize : Nat) (params : List String)
        (c : ClosureV) (rest : List Value),
        vm.instructions.get? vm.pc = some (.call argSize) →
        vm.stack = .closure params c :: rest →
        argSize ≤ rest.length → argSize = params.length → params.Nodup →
        vm.step nf = .ok { vm with
          instructions := c.instructions, pc := 0, stack := rest.drop argSize,
          frames := Frame.new (c.init_map (params.reverse.zip (rest.take argSize)))
            :: vm.frames }
        ∧ (∀ (k : Nat) (p : String) (a : Value),
            params[k]? = some p → ((rest.take argSize).reverse)[k]? = some a →
            (c.init_map (params.reverse.zip (rest.take argSize))).fetch p
              = some a)) := by
  constructor
  · intro f args ac hc
    unfold compileStatement
    rw [hc]
  · intro nf vm argSize params c rest hinsn hstack hlen harity hnodup
    subst harity
    constructor
    · unfold Vm.step
      rw [hinsn]
      simp [hstack, hlen, List.reverse_reverse]
    · intro k p a hp ha
      have hk : k < params.length := by
        have := List.getElem?_eq_some.mp hp
        exact this.1
      have htlen : (rest.take params.length).length = params.length := by
        simp [List.length_take, Nat.min_eq_left hlen]
      have hi : params.length - 1 - k < params.length := by omega
      have h1 : params.reverse[params.length - 1 - k]? = some p := by
        rw [List.getElem?_reverse hi]
        have : params.length - 1 - (params.length - 1 - k) = k := by omega
        rw [this]
        exact hp
      have h2 : (rest.take params.length)[params.length - 1 - k]? = some a := by
        have hk2 : k < (rest.take params.length).length := by omega
        rw [List.getElem?_reverse hk2] at ha
        rw [htlen] at ha
        exact ha
      have hmem : (p, a) ∈ params.reverse.zip (rest.take params.length) :=
        mem_zip_of_getElem? _ _ (params.length - 1 - k) p a h1 h2
      have hnames : (params.reverse.zip (rest.take params.length)).map Prod.fst
          = params.reverse := by
        apply List.map_fst_zip
        simp [htlen]
      exact init_map_fetch c _ p a
        (by rw [hnames]; exact List.nodup_reverse.mpr hnodup) hmem

/-- Witness for the amended C5: compiling `x(1, 2)` puts `Fetch(x)` after
the argument pushes, and executing the call with the closure on top binds
`c ↦ 1`, `d ↦ 2`. -/
theorem c5_call_compilation_amended_witness :
    (compileExprList (.cons (.literal (.number 1)) (.cons (.literal (.number 2)) .nil))
      = some (.cons (.push (.number 1)) (.cons (.push (.number 2)) .nil)))
    ∧ (compileStatement (.call "x"
        (.cons (.literal (.number 1)) (.cons (.literal (.number 2)) .nil)))
      = some ((InsnList.cons (.push (.number 1)) (.cons (.push (.number 2)) .nil)).append
          (.cons (.fetch "x") (.cons (.call 2) (.cons .clear .nil)))))
    ∧ (((ClosureV.mk (.cons .clear .nil) (BindingMap.mk .nil .none)).init_map
        ((["c", "d"] : List String).reverse.zip
          (([Value.number 2, Value.number 1] : List Value).take 2))).fetch "c"
      = some (.number 1))
    ∧ (((ClosureV.mk (.cons .clear .nil) (BindingMap.mk .nil .none)).init_map
        ((["c", "d"] : List String).reverse.zip
          (([Value.number 2, Value.number 1] : List Value).take 2))).fetch "d"
      = some (.number 2)) := by
  refine ⟨rfl,
    c5_call_compilation_amended.1 "x"
      (.cons (.literal (.number 1)) (.cons (.literal (.number 2)) .nil))
      (.cons (.push (.number 1)) (.cons (.push (.number 2)) .nil)) rfl,
    ?_, ?_⟩
  · exact (c5_call_compilation_amended.2 noNative
      ⟨.cons (.call 2) .nil, 0,
       [.closure ["c", "d"] (ClosureV.mk (.cons .clear .nil) (BindingMap.mk .nil .none)),
        .number 2, .number 1],
       [Frame.new (BindingMap.mk .nil .none)]⟩
      2 ["c", "d"] (ClosureV.mk (.cons .clear .nil) (BindingMap.mk .nil .none))
      [.number 2, .number 1]
      (by decide) rfl (by decide) (by decide) (by decide)).2 0 "c" (.number 1)
        (by decide) (by decide)
  · exact (c5_call_compilation_amended.2 noNative
      ⟨.cons (.call 2) .nil, 0,
       [.closure ["c", "d"] (ClosureV.mk (.cons .clear .nil) (BindingMap.mk .nil .none)),
        .number 2, .number 1],
       [Frame.new (BindingMap.mk .nil .none)]⟩
      2 ["c", "d"] (ClosureV.mk (.cons .clear .nil) (BindingMap.mk .nil .none))
      [.number 2, .number 1]
      (by decide) rfl (by decide) (by decide) (by decide)).2 1 "d" (.number 2)
        (by decide) (by decide)
